import Mathlib

/-!
Verification of the Plant-Detection client (src/index.tsx).

The file shallowly embeds the client logic of the application:

* the image normalizer `compressImage` (src/index.tsx lines 62-120) — the
  branch on the declared media type, the proportional resize bounded by
  1024, the fixed JPEG re-encode, and the base64 pass-through for
  non-image files.  The floating-point arithmetic of the resize is
  modelled with exact rationals; the canvas integer truncation is within
  the "within rounding" tolerance the properties allow;
* the failure categorisation of `analyzeItem` (lines 248-275);
* the item store — `processFiles` (lines 122-163), `removeItem`
  (lines 291-300) and the merge-by-id `setItems` updates (lines 251-274)
  — together with a small-step transition system over the application
  state.  Each accepted file spawns exactly one asynchronous pipeline
  that performs exactly one merge (result or error) for its id; the
  `pending` component of the state records the ids whose pipeline has
  not yet fired, mirroring that control flow.  The freshness side
  condition on uploads mirrors the spec's "opaque unique token" reading
  of the randomly generated ids.
-/

set_option maxRecDepth 8192

namespace PlantDetection

/-! ## Data model (src/index.tsx lines 9-39) -/

structure TreatmentStep where
  step : Nat
  action : String
  timing : String
  details : String
deriving DecidableEq

inductive Severity where
  | Low
  | Medium
  | High
  | None
deriving DecidableEq

structure Issue where
  name : String
  severity : Severity
  confidence : String
  explanation : String
  treatmentPlan : List TreatmentStep
deriving DecidableEq

structure AnalysisResult where
  overallStatus : String
  issues : List Issue
  safetyTips : List String
  followUp : String
deriving DecidableEq

/-- A raw uploaded file: name, declared media type, payload bytes, and the
decoded pixel dimensions (only meaningful for image files). -/
structure RawFile where
  name : String
  type : String
  bytes : List Nat
  width : ℚ
  height : ℚ
deriving DecidableEq

/-! ## Character-list string helpers

`String.startsWith` and the substring test of `analyzeItem` are modelled
directly on the character lists of the strings involved. -/

/-- Does the list `s` start with the list `pat`? -/
def startsWithL : List Char → List Char → Bool
  | _, [] => true
  | [], _ :: _ => false
  | a :: as, b :: bs => a == b && startsWithL as bs

/-- Does `s` contain `pat` as a contiguous sublist? -/
def hasSubL (s pat : List Char) : Bool :=
  match s with
  | [] => startsWithL [] pat
  | _ :: rest => startsWithL s pat || hasSubL rest pat

/-- Model of JavaScript `String.prototype.includes`. -/
def containsSub (s pat : String) : Bool := hasSubL s.data pat.data

/-- Model of `file.type.startsWith('image/')` (src/index.tsx line 65). -/
def isImageType (t : String) : Bool := startsWithL t.data "image/".data

/-! ## Base64 (model of the browser data-URL encoding)

The non-image branch of `compressImage` returns the file bytes unchanged,
base64-encoded (the part of the `readAsDataURL` result after the comma).
We model standard base64 with padding and prove the round-trip, which is
what "passed through unchanged" means for the encoded payload. -/

def base64Alphabet : List Char :=
  ['A', 'B', 'C', 'D', 'E', 'F', 'G', 'H', 'I', 'J', 'K', 'L', 'M',
   'N', 'O', 'P', 'Q', 'R', 'S', 'T', 'U', 'V', 'W', 'X', 'Y', 'Z',
   'a', 'b', 'c', 'd', 'e', 'f', 'g', 'h', 'i', 'j', 'k', 'l', 'm',
   'n', 'o', 'p', 'q', 'r', 's', 't', 'u', 'v', 'w', 'x', 'y', 'z',
   '0', '1', '2', '3', '4', '5', '6', '7', '8', '9', '+', '/']

/-- The base64 digit for a sextet value. -/
def encChar (n : Nat) : Char := base64Alphabet.getD n '='

/-- Sextet value of a base64 digit, `none` for characters outside the
alphabet (in particular for the padding character). -/
def decChar (c : Char) : Option Nat :=
  let i := base64Alphabet.indexOf c
  if i < 64 then some i else none

/-- Standard base64 encoding of a byte list, with `'='` padding. -/
def base64Encode : List Nat → List Char
  | [] => []
  | [a] => [encChar (a / 4), encChar (a % 4 * 16), '=', '=']
  | [a, b] => [encChar (a / 4), encChar (a % 4 * 16 + b / 16), encChar (b % 16 * 4), '=']
  | a :: b :: c :: rest =>
      encChar (a / 4) :: encChar (a % 4 * 16 + b / 16) ::
      encChar (b % 16 * 4 + c / 64) :: encChar (c % 64) :: base64Encode rest

/-- Standard base64 decoding; `none` on malformed input. -/
def base64Decode : List Char → Option (List Nat)
  | [] => some []
  | c1 :: c2 :: c3 :: c4 :: rest =>
      match decChar c1, decChar c2 with
      | some a, some b =>
        if c3 = '=' then
          if c4 = '=' ∧ rest = [] then some [a * 4 + b / 16] else none
        else
          match decChar c3 with
          | some c =>
            if c4 = '=' then
              if rest = [] then some [a * 4 + b / 16, b % 16 * 16 + c / 4] else none
            else
              match decChar c4, base64Decode rest with
              | some d, some tail =>
                  some ((a * 4 + b / 16) :: (b % 16 * 16 + c / 4) :: (c % 4 * 64 + d) :: tail)
              | _, _ => none
          | none => none
      | _, _ => none
  | _ => none

/-! ### Base64 round-trip -/

theorem decChar_encChar (n : Nat) (h : n < 64) : decChar (encChar n) = some n := by
  revert h
  revert n
  decide

theorem encChar_ne_pad (n : Nat) (h : n < 64) : encChar n ≠ '=' := by
  revert h
  revert n
  decide

/-- Decoding inverts encoding on byte lists: the payload is recoverable
unchanged from its base64 form. -/
theorem base64_roundtrip (l : List Nat) (hl : ∀ b ∈ l, b < 256) :
    base64Decode (base64Encode l) = some l := by
  induction l using base64Encode.induct with
  | case1 => rfl
  | case2 a =>
    have ha : a < 256 := hl a (by simp)
    have h1 := decChar_encChar (a / 4) (by omega)
    have h2 := decChar_encChar (a % 4 * 16) (by omega)
    simp only [base64Encode, base64Decode, h1, h2]
    simp
    omega
  | case3 a b =>
    have ha : a < 256 := hl a (by simp)
    have hb : b < 256 := hl b (by simp)
    have h1 := decChar_encChar (a / 4) (by omega)
    have h2 := decChar_encChar (a % 4 * 16 + b / 16) (by omega)
    have h3 := decChar_encChar (b % 16 * 4) (by omega)
    have h3ne := encChar_ne_pad (b % 16 * 4) (by omega)
    simp only [base64Encode, base64Decode, h1, h2, h3]
    simp [h3ne]
    omega
  | case4 a b c rest ih =>
    have ha : a < 256 := hl a (by simp)
    have hb : b < 256 := hl b (by simp)
    have hc : c < 256 := hl c (by simp)
    have hrest : ∀ x ∈ rest, x < 256 := fun x hx => hl x (by simp [hx])
    have h1 := decChar_encChar (a / 4) (by omega)
    have h2 := decChar_encChar (a % 4 * 16 + b / 16) (by omega)
    have h3 := decChar_encChar (b % 16 * 4 + c / 64) (by omega)
    have h4 := decChar_encChar (c % 64) (by omega)
    have h3ne := encChar_ne_pad (b % 16 * 4 + c / 64) (by omega)
    have h4ne := encChar_ne_pad (c % 64) (by omega)
    simp only [base64Encode, base64Decode, h1, h2, h3, h4, ih hrest]
    simp [h3ne, h4ne]
    omega

/-! ## Image normalizer (`compressImage`, src/index.tsx lines 62-120) -/

def MAX_WIDTH : ℚ := 1024
def MAX_HEIGHT : ℚ := 1024

/-- The resize logic of `compressImage` (src/index.tsx lines 86-103),
with the floating-point arithmetic carried out exactly in `ℚ`. -/
def resize (w h : ℚ) : ℚ × ℚ :=
  if w > h then
    if w > MAX_WIDTH then (MAX_WIDTH, h * (MAX_WIDTH / w)) else (w, h)
  else
    if h > MAX_HEIGHT then (w * (MAX_HEIGHT / h), MAX_HEIGHT) else (w, h)

/-- Result of the image normalizer: either a pass-through of the raw bytes
(non-image files) or a re-encoded JPEG with the resized dimensions. -/
inductive Normalized where
  | doc (data : List Char) (mimeType : String)
  | jpeg (width height : ℚ) (quality : ℚ) (mimeType : String)
deriving DecidableEq

/-- The declared media type of a normalized payload. -/
def Normalized.mime : Normalized → String
  | .doc _ m => m
  | .jpeg _ _ _ m => m

/-- The base64 payload of a normalized document (the image branch's JPEG
byte stream is produced by the opaque canvas encoder and is not modelled). -/
def Normalized.payload : Normalized → List Char
  | .doc d _ => d
  | .jpeg _ _ _ _ => []

/-- Model of `compressImage` (src/index.tsx lines 62-120): non-image files
are read as-is and base64 encoded with their original media type; image
files are resized within 1024×1024 and re-encoded as JPEG at quality 0.7. -/
def compressImage (f : RawFile) : Normalized :=
  if isImageType f.type then
    let r := resize f.width f.height
    .jpeg r.1 r.2 (7 / 10) "image/jpeg"
  else
    .doc (base64Encode f.bytes) f.type

/-! ### Resize lemmas -/

theorem resize_big (w h : ℚ) (hw : 0 < w) (hh : 0 < h) (hbig : 1024 < max w h) :
    max (resize w h).1 (resize w h).2 = 1024 ∧
    (resize w h).1 * h = (resize w h).2 * w := by
  unfold resize MAX_WIDTH MAX_HEIGHT
  by_cases hwh : w > h
  · have hw1024 : w > 1024 := by
      have := max_eq_left (le_of_lt hwh)
      rw [this] at hbig
      exact hbig
    simp only [hwh, hw1024, if_true]
    constructor
    · have hle : h * (1024 / w) ≤ 1024 := by
        rw [mul_div_assoc']
        rw [div_le_iff₀ hw]
        nlinarith
      exact max_eq_left hle
    · field_simp
      ring
  · push_neg at hwh
    have hh1024 : h > 1024 := by
      have := max_eq_right hwh
      rw [this] at hbig
      exact hbig
    simp only [gt_iff_lt, not_lt.mpr hwh, if_false, hh1024, if_true]
    constructor
    · have hle : w * (1024 / h) ≤ 1024 := by
        rw [mul_div_assoc']
        rw [div_le_iff₀ hh]
        nlinarith
      exact max_eq_right hle
    · field_simp
      ring

theorem resize_small (w h : ℚ) (hsmall : max w h ≤ 1024) :
    resize w h = (w, h) := by
  unfold resize MAX_WIDTH MAX_HEIGHT
  by_cases hwh : w > h
  · have : w ≤ 1024 := le_trans (le_max_left w h) hsmall
    simp [hwh, not_lt.mpr this]
  · have : h ≤ 1024 := le_trans (le_max_right w h) hsmall
    simp [hwh, not_lt.mpr this]

/-- C1: for every accepted image file, `compressImage` produces a JPEG at
quality 0.7 whose dimensions are the resized ones: if either dimension
exceeds 1024 the larger output dimension equals 1024 and the aspect ratio
is preserved exactly (`w' * h = h' * w`); if both are within 1024 the
dimensions are unchanged; and the output mime type is `image/jpeg`
regardless of the input image format. -/
theorem C1_compressImage_image (f : RawFile) (himg : isImageType f.type = true)
    (hw : 0 < f.width) (hh : 0 < f.height) :
    compressImage f =
      .jpeg (resize f.width f.height).1 (resize f.width f.height).2 (7 / 10) "image/jpeg" ∧
    (compressImage f).mime = "image/jpeg" ∧
    (1024 < max f.width f.height →
      max (resize f.width f.height).1 (resize f.width f.height).2 = 1024 ∧
      (resize f.width f.height).1 * f.height = (resize f.width f.height).2 * f.width) ∧
    (max f.width f.height ≤ 1024 → resize f.width f.height = (f.width, f.height)) := by
  refine ⟨?_, ?_, ?_, ?_⟩
  · simp [compressImage, himg]
  · simp [compressImage, himg, Normalized.mime]
  · intro hbig
    exact resize_big f.width f.height hw hh hbig
  · intro hsmall
    exact resize_small f.width f.height hsmall

/-- Witness for C1 at a concrete oversized PNG (2048 × 1000): the output
is a 1024 × 500 JPEG. -/
theorem C1_witness :
    isImageType "image/png" = true ∧ (0 : ℚ) < 2048 ∧ (0 : ℚ) < 1000 ∧
    (compressImage ⟨"leaf.png", "image/png", [], 2048, 1000⟩).mime = "image/jpeg" ∧
    resize 2048 1000 = (1024, 500) := by
  refine ⟨by decide, by norm_num, by norm_num, ?_, ?_⟩
  · exact (C1_compressImage_image ⟨"leaf.png", "image/png", [], 2048, 1000⟩
      (by decide) (by norm_num) (by norm_num)).2.1
  · have h := (C1_compressImage_image ⟨"leaf.png", "image/png", [], 2048, 1000⟩
      (by decide) (by norm_num) (by norm_num)).2.2.1 (by norm_num)
    unfold resize MAX_WIDTH MAX_HEIGHT
    norm_num

/-- C2: for every accepted non-image file (declared media type not an image
type, i.e. `application/pdf`), `compressImage` passes the payload bytes
through unchanged (the base64 data decodes back to exactly the input
bytes) with `mimeType` equal to the file's declared media type. -/
theorem C2_compressImage_doc (f : RawFile) (hdoc : isImageType f.type = false)
    (hbytes : ∀ b ∈ f.bytes, b < 256) :
    compressImage f = .doc (base64Encode f.bytes) f.type ∧
    (compressImage f).mime = f.type ∧
    base64Decode ((compressImage f).payload) = some f.bytes := by
  have hc : compressImage f = .doc (base64Encode f.bytes) f.type := by
    simp [compressImage, hdoc]
  refine ⟨hc, ?_, ?_⟩
  · rw [hc]
    rfl
  · rw [hc]
    exact base64_roundtrip f.bytes hbytes

/-- Witness for C2 at a concrete PDF whose bytes are the `%PDF` magic:
the payload round-trips and the media type is preserved. -/
theorem C2_witness :
    isImageType "application/pdf" = false ∧
    (compressImage ⟨"doc.pdf", "application/pdf", [37, 80, 68, 70], 0, 0⟩).mime =
      "application/pdf" ∧
    base64Decode ((compressImage ⟨"doc.pdf", "application/pdf", [37, 80, 68, 70], 0, 0⟩).payload) =
      some [37, 80, 68, 70] := by
  have h := C2_compressImage_doc ⟨"doc.pdf", "application/pdf", [37, 80, 68, 70], 0, 0⟩
    (by decide) (by decide)
  exact ⟨by decide, h.2.1, h.2.2⟩

/-! ## Failure categorisation of `analyzeItem` (src/index.tsx lines 248-275)

On success the response text is JSON-parsed and merged as the result.  A
missing response text raises `Error("No response from AI")`, which falls
into the same catch handler as transport and parse errors.  The handler
starts from a default message, and when the caught error carries a
message it picks the 403 category, then the 503 category, then a
truncated excerpt. -/

def permissionDeniedMsg : String := "Permission Denied: Please check API Key or Network."
def unavailableMsg : String := "Service temporarily unavailable. Retrying might help."
def defaultFailMsg : String := "Failed to analyze. Please try again."
def noResponseMsg : String := "No response from AI"
def compressFailMsg : String := "Failed to process image."

/-- Model of `err.message.slice(0, 50)` wrapped in the generic template
(src/index.tsx line 265). -/
def excerptMsg (m : String) : String := "Error: " ++ m.take 50 ++ "..."

/-- The catch handler of `analyzeItem` (src/index.tsx lines 259-266),
given `err.message` (`none` when the thrown value carries no message). -/
def errorMessageFor : Option String → String
  | Option.none => defaultFailMsg
  | some m =>
    if containsSub m "403" then permissionDeniedMsg
    else if containsSub m "503" then unavailableMsg
    else excerptMsg m

/-- Outcome of one `generateContent` call as observed by `analyzeItem`:
the response text parsed successfully, the response text was absent, or
the call (or the JSON parse) threw with an optional message. -/
inductive CallOutcome where
  | parsed (r : AnalysisResult)
  | noText
  | thrown (msg : Option String)
deriving DecidableEq

/-- The error message `analyzeItem` stores for a given call outcome
(`none` when the call succeeded).  The absent-text case flows through the
catch handler with the thrown `"No response from AI"` message. -/
def analyzeErrorMessage : CallOutcome → Option String
  | .parsed _ => Option.none
  | .noText => some (errorMessageFor (some noResponseMsg))
  | .thrown m => some (errorMessageFor m)

/-- C3: the stored analysis error message follows the documented cascade:
absent response text yields the generic no-response failure (the excerpt
of the thrown `"No response from AI"`); an error message containing
`"403"` yields the permission-denied category; one containing `"503"`
(and not `"403"`) yields the transient-unavailable category; any other
message yields the generic failure with the message truncated to 50
characters. -/
theorem C3_error_cascade :
    (analyzeErrorMessage .noText = some "Error: No response from AI..." ∧
      containsSub "Error: No response from AI..." "No response" = true) ∧
    (∀ m : String, containsSub m "403" = true →
      analyzeErrorMessage (.thrown (some m)) = some permissionDeniedMsg) ∧
    (∀ m : String, containsSub m "403" = false → containsSub m "503" = true →
      analyzeErrorMessage (.thrown (some m)) = some unavailableMsg) ∧
    (∀ m : String, containsSub m "403" = false → containsSub m "503" = false →
      analyzeErrorMessage (.thrown (some m)) = some ("Error: " ++ m.take 50 ++ "...")) := by
  refine ⟨⟨by decide, by decide⟩, ?_, ?_, ?_⟩
  · intro m h
    simp [analyzeErrorMessage, errorMessageFor, h]
  · intro m h4 h5
    simp [analyzeErrorMessage, errorMessageFor, h4, h5]
  · intro m h4 h5
    simp [analyzeErrorMessage, errorMessageFor, excerptMsg, h4, h5]

/-- Witness for C3: the three categorised branches evaluated at concrete
messages, plus the no-text case. -/
theorem C3_witness :
    analyzeErrorMessage .noText = some "Error: No response from AI..." ∧
    analyzeErrorMessage (.thrown (some "got 403 back")) = some permissionDeniedMsg ∧
    analyzeErrorMessage (.thrown (some "got 503 back")) = some unavailableMsg ∧
    analyzeErrorMessage (.thrown (some "boom")) = some ("Error: " ++ "boom".take 50 ++ "...") :=
  ⟨C3_error_cascade.1.1,
   C3_error_cascade.2.1 "got 403 back" (by decide),
   C3_error_cascade.2.2.1 "got 503 back" (by decide) (by decide),
   C3_error_cascade.2.2.2 "boom" (by decide) (by decide)⟩

/-- C10: when the underlying error message contains both `"403"` and
`"503"`, the `403` branch wins and the failure is categorised as
permission-denied. -/
theorem C10_403_precedence (m : String)
    (h403 : containsSub m "403" = true) (h503 : containsSub m "503" = true) :
    analyzeErrorMessage (.thrown (some m)) = some permissionDeniedMsg := by
  simp [analyzeErrorMessage, errorMessageFor, h403]

/-- Witness for C10 at a message containing both markers. -/
theorem C10_witness :
    containsSub "HTTP 403 then 503" "403" = true ∧
    containsSub "HTTP 403 then 503" "503" = true ∧
    analyzeErrorMessage (.thrown (some "HTTP 403 then 503")) = some permissionDeniedMsg :=
  ⟨by decide, by decide, C10_403_precedence "HTTP 403 then 503" (by decide) (by decide)⟩

/-! ## Item store (src/index.tsx lines 31-43, 122-163, 251-300)

A `FileItem` mirrors the `FileItem` record of the source; the application
state carries the ordered item list and the selected id.  The `pending`
component records the ids whose asynchronous pipeline (spawned once per
accepted file at lines 153-161) has not yet performed its single
merge-by-id mutation. -/

structure FileItem where
  id : String
  name : String
  mimeType : String
  loading : Bool
  result : Option AnalysisResult
  error : Option String
deriving DecidableEq

structure AppState where
  items : List FileItem
  selectedId : Option String
  pending : List String
deriving DecidableEq

/-- Model of `file.type.startsWith('image/') || file.type === 'application/pdf'`
negated at src/index.tsx line 127: the accepted media types. -/
def isSupported (t : String) : Bool := isImageType t || t == "application/pdf"

/-- The user-visible rejection notice of src/index.tsx line 128. -/
def alertMsg (n : String) : String :=
  "File " ++ n ++ " is not supported. Please use JPG, PNG, or PDF."

/-- A freshly created entry (src/index.tsx lines 134-142). -/
def mkItem (id : String) (f : RawFile) : FileItem :=
  { id := id
    name := f.name
    mimeType := f.type
    loading := true
    result := Option.none
    error := Option.none }

/-- The `forEach` loop of `processFiles` (src/index.tsx lines 125-145):
each supported file is turned into a new Loading entry with a fresh id,
unsupported files are skipped.  `fresh` supplies the ids the source draws
from `Math.random`, indexed by how many entries were created so far. -/
def processNewAux (files : List RawFile) (fresh : Nat → String) (k : Nat) : List FileItem :=
  match files with
  | [] => []
  | f :: fs =>
    if isSupported f.type then mkItem (fresh k) f :: processNewAux fs fresh (k + 1)
    else processNewAux fs fresh k

def processNew (files : List RawFile) (fresh : Nat → String) : List FileItem :=
  processNewAux files fresh 0

/-- The rejection notices produced by the same loop: one per unsupported
file, naming it. -/
def alerts (files : List RawFile) : List String :=
  (files.filter (fun f => !isSupported f.type)).map (fun f => alertMsg f.name)

/-- State effect of `processFiles` (src/index.tsx lines 147-151): append
the new entries, select the first new entry when there is one, and spawn
one pipeline per new entry. -/
def processFiles (s : AppState) (files : List RawFile) (fresh : Nat → String) : AppState :=
  let newItems := processNew files fresh
  { items := s.items ++ newItems
    selectedId :=
      match newItems with
      | [] => s.selectedId
      | x :: _ => some x.id
    pending := s.pending ++ newItems.map (fun i => i.id) }

/-- The result-merge `setItems` update of `analyzeItem`
(src/index.tsx lines 251-255). -/
def setResultById (id : String) (r : AnalysisResult) (items : List FileItem) : List FileItem :=
  items.map (fun i => if i.id = id then { i with loading := false, result := some r } else i)

/-- The error-merge `setItems` updates (src/index.tsx lines 159 and 268-274). -/
def setErrorById (id : String) (msg : String) (items : List FileItem) : List FileItem :=
  items.map (fun i => if i.id = id then { i with loading := false, error := some msg } else i)

/-- `removeItem` (src/index.tsx lines 291-300): drop the entry with the
given id; when it was selected, select the new first entry or nothing. -/
def removeItem (id : String) (s : AppState) : AppState :=
  let newItems := s.items.filter (fun i => decide (i.id ≠ id))
  { items := newItems
    selectedId :=
      if s.selectedId = some id then
        match newItems with
        | [] => Option.none
        | x :: _ => some x.id
      else s.selectedId
    pending := s.pending }

/-- A list map that fixes every element is the identity. -/
theorem map_id_of_fixed {α : Type} (l : List α) (f : α → α) (h : ∀ a ∈ l, f a = a) :
    l.map f = l := by
  induction l with
  | nil => rfl
  | cons x xs ih =>
    simp only [List.map_cons, h x (by simp)]
    rw [ih (fun a ha => h a (by simp [ha]))]

/-! ### Item-store lemmas -/

theorem processNewAux_length (files : List RawFile) (fresh : Nat → String) (k : Nat) :
    (processNewAux files fresh k).length = files.countP (fun f => isSupported f.type) := by
  induction files generalizing k with
  | nil => rfl
  | cons f fs ih =>
    by_cases hf : isSupported f.type
    · simp [processNewAux, hf, ih, List.countP_cons]
    · simp [processNewAux, hf, ih, List.countP_cons]

theorem processNewAux_fields (files : List RawFile) (fresh : Nat → String) (k : Nat) :
    ∀ i ∈ processNewAux files fresh k,
      i.loading = true ∧ i.result = Option.none ∧ i.error = Option.none ∧
      isSupported i.mimeType = true := by
  induction files generalizing k with
  | nil => intro i hi; simp [processNewAux] at hi
  | cons f fs ih =>
    intro i hi
    by_cases hf : isSupported f.type
    · simp only [processNewAux, hf, if_true, List.mem_cons] at hi
      rcases hi with hi | hi
      · subst hi
        exact ⟨rfl, rfl, rfl, hf⟩
      · exact ih (k + 1) i hi
    · simp only [processNewAux, hf, if_false] at hi
      exact ih k i hi

/-- C4: `removeItem id` deletes exactly the entries with that id (every
other entry survives); when the removed entry was selected the selection
becomes the first remaining entry, or empty when none remain; removing a
non-selected entry leaves the selection unchanged. -/
theorem C4_removeItem (s : AppState) (id : String) :
    (∀ j ∈ (removeItem id s).items, j.id ≠ id) ∧
    (∀ j ∈ s.items, j.id ≠ id → j ∈ (removeItem id s).items) ∧
    (s.selectedId = some id →
      (removeItem id s).selectedId = ((removeItem id s).items.head?).map FileItem.id) ∧
    (s.selectedId ≠ some id → (removeItem id s).selectedId = s.selectedId) := by
  refine ⟨?_, ?_, ?_, ?_⟩
  · intro j hj
    simp only [removeItem, List.mem_filter, decide_eq_true_eq] at hj
    exact hj.2
  · intro j hj hne
    simp only [removeItem, List.mem_filter, decide_eq_true_eq]
    exact ⟨hj, hne⟩
  · intro hsel
    simp only [removeItem, if_pos hsel]
    cases s.items.filter (fun i => decide (i.id ≠ id)) with
    | nil => rfl
    | cons x xs => rfl
  · intro hsel
    simp only [removeItem, if_neg hsel]

/-- Witness for C4: removing the selected first of two items reselects
the remaining item, and all remaining entries avoid the removed id. -/
theorem C4_witness :
    (removeItem "a" ⟨[⟨"a", "one.png", "image/png", true, Option.none, Option.none⟩,
        ⟨"b", "two.png", "image/png", true, Option.none, Option.none⟩],
        some "a", []⟩).selectedId = some "b" ∧
    (⟨"b", "two.png", "image/png", true, Option.none, Option.none⟩ : FileItem).id ≠ "a" := by
  constructor
  · have h := (C4_removeItem ⟨[⟨"a", "one.png", "image/png", true, Option.none, Option.none⟩,
        ⟨"b", "two.png", "image/png", true, Option.none, Option.none⟩],
        some "a", []⟩ "a").2.2.1 rfl
    rw [h]
    rfl
  · have h := (C4_removeItem ⟨[⟨"a", "one.png", "image/png", true, Option.none, Option.none⟩,
        ⟨"b", "two.png", "image/png", true, Option.none, Option.none⟩],
        some "a", []⟩ "a").1
    exact h ⟨"b", "two.png", "image/png", true, Option.none, Option.none⟩ (by decide)

/-- C5: a batch of files adds exactly one entry per supported file (and
none for unsupported ones), each new entry starts Loading with no result
and no error and carries a supported media type, the new entries are
appended after the existing ones, and exactly one rejection notice naming
the file is produced per unsupported file. -/
theorem C5_processFiles (s : AppState) (files : List RawFile) (fresh : Nat → String) :
    (processFiles s files fresh).items.length =
      s.items.length + files.countP (fun f => isSupported f.type) ∧
    (processFiles s files fresh).items = s.items ++ processNew files fresh ∧
    (∀ i ∈ processNew files fresh,
      i.loading = true ∧ i.result = Option.none ∧ i.error = Option.none ∧
      isSupported i.mimeType = true) ∧
    (alerts files).length = files.countP (fun f => !isSupported f.type) ∧
    (∀ f ∈ files, isSupported f.type = false → alertMsg f.name ∈ alerts files) := by
  refine ⟨?_, rfl, ?_, ?_, ?_⟩
  · simp [processFiles, processNew, processNewAux_length]
  · exact processNewAux_fields files fresh 0
  · simp [alerts, List.countP_eq_length_filter]
  · intro f hf hns
    simp only [alerts, List.mem_map]
    exact ⟨f, List.mem_filter.mpr ⟨hf, by simp [hns]⟩, rfl⟩

/-- Witness for C5: one supported PNG and one unsupported text file yield
one Loading entry, one rejection notice naming the text file, and no
entry for it. -/
theorem C5_witness :
    (processFiles ⟨[], Option.none, []⟩
        [⟨"leaf.png", "image/png", [], 8, 8⟩, ⟨"notes.txt", "text/plain", [], 0, 0⟩]
        (fun _ => "id0")).items.length = 0 + 1 ∧
    alerts [⟨"leaf.png", "image/png", [], 8, 8⟩, ⟨"notes.txt", "text/plain", [], 0, 0⟩] =
      [alertMsg "notes.txt"] ∧
    alertMsg "notes.txt" ∈
      alerts [⟨"leaf.png", "image/png", [], 8, 8⟩, ⟨"notes.txt", "text/plain", [], 0, 0⟩] ∧
    (∀ i ∈ processNew
        [⟨"leaf.png", "image/png", [], 8, 8⟩, ⟨"notes.txt", "text/plain", [], 0, 0⟩]
        (fun _ => "id0"), i.loading = true) := by
  have h := C5_processFiles ⟨[], Option.none, []⟩
    [⟨"leaf.png", "image/png", [], 8, 8⟩, ⟨"notes.txt", "text/plain", [], 0, 0⟩]
    (fun _ => "id0")
  refine ⟨?_, by decide, ?_, ?_⟩
  · rw [h.1]
    decide
  · exact h.2.2.2.2 ⟨"notes.txt", "text/plain", [], 0, 0⟩ (by decide) (by decide)
  · intro i hi
    exact (h.2.2.1 i hi).1

/-- C6: merging a result or an error for an id that is not present in the
collection leaves every entry unchanged — the mutation is a no-op. -/
theorem C6_absent_id_noop (items : List FileItem) (id : String)
    (h : ∀ i ∈ items, i.id ≠ id) (r : AnalysisResult) (msg : String) :
    setResultById id r items = items ∧ setErrorById id msg items = items := by
  constructor
  · exact map_id_of_fixed items _ (fun i hi => by simp [h i hi])
  · exact map_id_of_fixed items _ (fun i hi => by simp [h i hi])

/-- Witness for C6: merging against the absent id `"gone"` leaves a
one-item collection untouched. -/
theorem C6_witness :
    setResultById "gone" ⟨"Healthy", [], [], "none"⟩
        [⟨"a", "one.png", "image/png", true, Option.none, Option.none⟩] =
      [⟨"a", "one.png", "image/png", true, Option.none, Option.none⟩] ∧
    setErrorById "gone" "boom"
        [⟨"a", "one.png", "image/png", true, Option.none, Option.none⟩] =
      [⟨"a", "one.png", "image/png", true, Option.none, Option.none⟩] :=
  C6_absent_id_noop [⟨"a", "one.png", "image/png", true, Option.none, Option.none⟩] "gone"
    (by decide) ⟨"Healthy", [], [], "none"⟩ "boom"

/-- C9: whenever at least one file of the batch is accepted (so the list
of new entries is nonempty with first entry `first`), `processFiles`
selects `first`, replacing any previous selection. -/
theorem C9_select_first_new (s : AppState) (files : List RawFile) (fresh : Nat → String)
    (first : FileItem) (h : (processNew files fresh).head? = some first) :
    (processFiles s files fresh).selectedId = some first.id := by
  unfold processFiles
  cases hn : processNew files fresh with
  | nil => rw [hn] at h; simp at h
  | cons x xs =>
    rw [hn] at h
    simp only [List.head?_cons, Option.some.injEq] at h
    simp [hn, h]

/-- Witness for C9: uploading one valid PNG over an existing selection
selects the new entry. -/
theorem C9_witness :
    (processFiles ⟨[], some "old", []⟩ [⟨"leaf.png", "image/png", [], 8, 8⟩]
        (fun _ => "id0")).selectedId = some "id0" :=
  C9_select_first_new ⟨[], some "old", []⟩ [⟨"leaf.png", "image/png", [], 8, 8⟩]
    (fun _ => "id0") (mkItem "id0" ⟨"leaf.png", "image/png", [], 8, 8⟩) (by decide)

/-! ## Transition system

Each accepted file spawns exactly one asynchronous pipeline
(src/index.tsx lines 153-161) which performs exactly one merge-by-id
mutation: the compression catch handler's error merge (line 159), or —
inside `analyzeItem` — the result merge (lines 251-255) or the catch
handler's error merge (lines 268-274).  `pending` records ids whose
pipeline has not yet fired; a merge step consumes its id.  Removal does
not cancel a pipeline (there is no cancellation in the source), so a
pending merge may fire after its item is gone and act as a no-op.
Uploads require the randomly drawn ids to be fresh, matching the spec's
"opaque unique token" reading. -/

/-- Effect of `analyzeItem`'s single `setItems` call on the item list,
by call outcome. -/
def analyzeStep (id : String) (o : CallOutcome) (items : List FileItem) : List FileItem :=
  match o with
  | .parsed r => setResultById id r items
  | .noText => setErrorById id (errorMessageFor (some noResponseMsg)) items
  | .thrown m => setErrorById id (errorMessageFor m) items

/-- The ids assigned to the entries of a batch. -/
def newIds (files : List RawFile) (fresh : Nat → String) : List String :=
  (processNew files fresh).map (fun i => i.id)

/-- The ids drawn for a batch are pairwise distinct and unused. -/
def freshIdsOk (s : AppState) (files : List RawFile) (fresh : Nat → String) : Prop :=
  (newIds files fresh).Nodup ∧
  ∀ id ∈ newIds files fresh, id ∉ s.pending ∧ ∀ i ∈ s.items, i.id ≠ id

/-- One step of the application: a batch upload, the single merge of an
item's pipeline (analysis outcome or compression failure), an explicit
removal, or a selection change. -/
inductive Step : AppState → AppState → Prop where
  | upload (s : AppState) (files : List RawFile) (fresh : Nat → String)
      (hfresh : freshIdsOk s files fresh) : Step s (processFiles s files fresh)
  | finish (s : AppState) (id : String) (o : CallOutcome) (hid : id ∈ s.pending) :
      Step s { items := analyzeStep id o s.items
               selectedId := s.selectedId
               pending := s.pending.erase id }
  | compressFail (s : AppState) (id : String) (hid : id ∈ s.pending) :
      Step s { items := setErrorById id compressFailMsg s.items
               selectedId := s.selectedId
               pending := s.pending.erase id }
  | remove (s : AppState) (id : String) : Step s (removeItem id s)
  | select (s : AppState) (sid : Option String) :
      Step s { items := s.items, selectedId := sid, pending := s.pending }

def initState : AppState := { items := [], selectedId := Option.none, pending := [] }

instance (s : AppState) (files : List RawFile) (fresh : Nat → String) :
    Decidable (freshIdsOk s files fresh) := by
  unfold freshIdsOk
  infer_instance

/-- States reachable from the empty initial state. -/
inductive Reachable : AppState → Prop where
  | init : Reachable initState
  | step {s s' : AppState} : Reachable s → Step s s' → Reachable s'

/-- Exactly one of loading / error-set / result-set holds for an item. -/
def settledExclusive (i : FileItem) : Prop :=
  (i.loading = true ∧ i.error = Option.none ∧ i.result = Option.none) ∨
  (i.loading = false ∧ i.error ≠ Option.none ∧ i.result = Option.none) ∨
  (i.loading = false ∧ i.error = Option.none ∧ i.result ≠ Option.none)

/-- An item in a terminal state: Succeeded (result set) or Failed (error
set). -/
def terminalItem (i : FileItem) : Prop :=
  i.result ≠ Option.none ∨ i.error ≠ Option.none

instance (i : FileItem) : Decidable (terminalItem i) := by
  unfold terminalItem
  infer_instance

/-- The inductive invariant: every item is in exactly one settled state,
items with an in-flight pipeline are still Loading and unsettled, and no
id has two in-flight pipelines. -/
def Inv (s : AppState) : Prop :=
  (∀ i ∈ s.items, settledExclusive i) ∧
  (∀ i ∈ s.items, i.id ∈ s.pending →
    i.loading = true ∧ i.error = Option.none ∧ i.result = Option.none) ∧
  s.pending.Nodup

/-! ### Invariant preservation -/

theorem setResultById_id (i : FileItem) (id : String) (r : AnalysisResult) :
    (if i.id = id then { i with loading := false, result := some r } else i).id = i.id := by
  by_cases h : i.id = id <;> simp [h]

theorem setErrorById_id (i : FileItem) (id : String) (msg : String) :
    (if i.id = id then { i with loading := false, error := some msg } else i).id = i.id := by
  by_cases h : i.id = id <;> simp [h]

theorem mem_setResultById_of_ne {items : List FileItem} {id : String} {r : AnalysisResult}
    {i : FileItem} (hi : i ∈ items) (hne : i.id ≠ id) : i ∈ setResultById id r items :=
  List.mem_map.mpr ⟨i, hi, by simp [hne]⟩

theorem mem_setErrorById_of_ne {items : List FileItem} {id : String} {msg : String}
    {i : FileItem} (hi : i ∈ items) (hne : i.id ≠ id) : i ∈ setErrorById id msg items :=
  List.mem_map.mpr ⟨i, hi, by simp [hne]⟩

theorem inv_setResultById {s : AppState} (hs : Inv s) (id : String) (hid : id ∈ s.pending)
    (r : AnalysisResult) (sel : Option String) :
    Inv { items := setResultById id r s.items, selectedId := sel,
          pending := s.pending.erase id } := by
  obtain ⟨hone, hpend, hnd⟩ := hs
  refine ⟨?_, ?_, hnd.erase id⟩
  · intro j hj
    rcases List.mem_map.mp hj with ⟨i, hi, rfl⟩
    by_cases hiid : i.id = id
    · have hload := hpend i hi (hiid ▸ hid)
      simp only [if_pos hiid]
      right; right
      exact ⟨rfl, hload.2.1, by simp⟩
    · simp only [if_neg hiid]
      exact hone i hi
  · intro j hj hjid
    rcases List.mem_map.mp hj with ⟨i, hi, rfl⟩
    rw [setResultById_id] at hjid
    have := (hnd.mem_erase_iff.mp hjid)
    simp only [if_neg this.1]
    exact hpend i hi this.2

theorem inv_setErrorById {s : AppState} (hs : Inv s) (id : String) (hid : id ∈ s.pending)
    (msg : String) (sel : Option String) :
    Inv { items := setErrorById id msg s.items, selectedId := sel,
          pending := s.pending.erase id } := by
  obtain ⟨hone, hpend, hnd⟩ := hs
  refine ⟨?_, ?_, hnd.erase id⟩
  · intro j hj
    rcases List.mem_map.mp hj with ⟨i, hi, rfl⟩
    by_cases hiid : i.id = id
    · have hload := hpend i hi (hiid ▸ hid)
      simp only [if_pos hiid]
      right; left
      exact ⟨rfl, by simp, hload.2.2⟩
    · simp only [if_neg hiid]
      exact hone i hi
  · intro j hj hjid
    rcases List.mem_map.mp hj with ⟨i, hi, rfl⟩
    rw [setErrorById_id] at hjid
    have := (hnd.mem_erase_iff.mp hjid)
    simp only [if_neg this.1]
    exact hpend i hi this.2

theorem inv_step {s s' : AppState} (hs : Inv s) (h : Step s s') : Inv s' := by
  obtain ⟨hone, hpend, hnd⟩ := hs
  cases h with
  | upload files fresh hfresh =>
    obtain ⟨hndnew, hnew⟩ := hfresh
    refine ⟨?_, ?_, ?_⟩
    · intro i hi
      rcases List.mem_append.mp hi with hi | hi
      · exact hone i hi
      · have := processNewAux_fields files fresh 0 i hi
        exact Or.inl ⟨this.1, this.2.2.1, this.2.1⟩
    · intro i hi hiid
      rcases List.mem_append.mp hi with hi | hi
      · rcases List.mem_append.mp hiid with hp | hp
        · exact hpend i hi hp
        · exact absurd rfl ((hnew i.id hp).2 i hi)
      · have := processNewAux_fields files fresh 0 i hi
        exact ⟨this.1, this.2.2.1, this.2.1⟩
    · exact hnd.append hndnew (fun a ha hb => (hnew a hb).1 ha)
  | finish id o hid =>
    cases o with
    | parsed r => exact inv_setResultById ⟨hone, hpend, hnd⟩ id hid r s.selectedId
    | noText => exact inv_setErrorById ⟨hone, hpend, hnd⟩ id hid _ s.selectedId
    | thrown m => exact inv_setErrorById ⟨hone, hpend, hnd⟩ id hid _ s.selectedId
  | compressFail id hid =>
    exact inv_setErrorById ⟨hone, hpend, hnd⟩ id hid _ s.selectedId
  | remove id =>
    refine ⟨?_, ?_, hnd⟩
    · intro i hi
      exact hone i (List.mem_filter.mp hi).1
    · intro i hi hiid
      exact hpend i (List.mem_filter.mp hi).1 hiid
  | select sid =>
    exact ⟨hone, hpend, hnd⟩

theorem inv_reachable {s : AppState} (h : Reachable s) : Inv s := by
  induction h with
  | init => exact ⟨by simp [initState], by simp [initState], List.nodup_nil⟩
  | step _ hstep ih => exact inv_step ih hstep

/-- C7: in every reachable application state, every item of the
collection satisfies the mutual-exclusion invariant — exactly one of
{loading, error set, result set} holds. -/
theorem C7_exactly_one (s : AppState) (hs : Reachable s) :
    ∀ i ∈ s.items, settledExclusive i :=
  (inv_reachable hs).1

/-- Concrete batch, result and states used by the C7 and C8 witnesses. -/
def exFile : RawFile := ⟨"leaf.png", "image/png", [], 8, 8⟩

def exResult : AnalysisResult := ⟨"Healthy", [], [], "ok"⟩

def exState1 : AppState := processFiles initState [exFile] (fun _ => "id0")

def exState2 : AppState :=
  { items := analyzeStep "id0" (.parsed exResult) exState1.items
    selectedId := exState1.selectedId
    pending := exState1.pending.erase "id0" }

def exDone : FileItem :=
  ⟨"id0", "leaf.png", "image/png", false, some exResult, Option.none⟩

/-- Witness for C7: the state after uploading one PNG is reachable and
its single entry is exclusively Loading. -/
theorem C7_witness : settledExclusive (mkItem "id0" exFile) :=
  C7_exactly_one exState1
    (Reachable.step Reachable.init (Step.upload initState [exFile] (fun _ => "id0") (by decide)))
    (mkItem "id0" exFile) (by decide)

/-- C8: from any reachable state, one step of the system leaves every
terminal item (result or error set) either untouched in the collection or
fully removed (no entry with its id remains); no step transitions a
terminal item to another state. -/
theorem C8_terminal_stable (s s' : AppState) (hs : Reachable s) (hstep : Step s s')
    (i : FileItem) (hi : i ∈ s.items) (hterm : terminalItem i) :
    i ∈ s'.items ∨ ∀ j ∈ s'.items, j.id ≠ i.id := by
  have hinv := inv_reachable hs
  cases hstep with
  | upload files fresh hfresh =>
    left
    exact List.mem_append_left _ hi
  | finish id o hid =>
    by_cases hiid : i.id = id
    · have hload := hinv.2.1 i hi (hiid ▸ hid)
      rcases hterm with hterm | hterm
      · exact absurd hload.2.2 hterm
      · exact absurd hload.2.1 hterm
    · left
      cases o with
      | parsed r => exact mem_setResultById_of_ne hi hiid
      | noText => exact mem_setErrorById_of_ne hi hiid
      | thrown m => exact mem_setErrorById_of_ne hi hiid
  | compressFail id hid =>
    by_cases hiid : i.id = id
    · have hload := hinv.2.1 i hi (hiid ▸ hid)
      rcases hterm with hterm | hterm
      · exact absurd hload.2.2 hterm
      · exact absurd hload.2.1 hterm
    · left
      exact mem_setErrorById_of_ne hi hiid
  | remove id =>
    by_cases hiid : i.id = id
    · right
      intro j hj
      have := (List.mem_filter.mp hj).2
      simp only [decide_eq_true_eq] at this
      rw [hiid]
      exact this
    · left
      exact List.mem_filter.mpr ⟨hi, by simp [hiid]⟩
  | select sid =>
    left
    exact hi

/-- Witness for C8: after uploading one PNG and merging its successful
analysis, the Succeeded entry survives a selection-change step. -/
theorem C8_witness :
    exDone ∈ (AppState.mk exState2.items Option.none exState2.pending).items ∨
    ∀ j ∈ (AppState.mk exState2.items Option.none exState2.pending).items, j.id ≠ exDone.id :=
  C8_terminal_stable exState2 ⟨exState2.items, Option.none, exState2.pending⟩
    (Reachable.step
      (Reachable.step Reachable.init (Step.upload initState [exFile] (fun _ => "id0") (by decide)))
      (Step.finish exState1 "id0" (.parsed exResult) (by decide)))
    (Step.select exState2 Option.none)
    exDone (by decide) (by decide)

end PlantDetection
